import Mathlib

/-!
Verification development for the piezo-conditioner repository.

The repository fits a recorded piezo transient with a sum of two damped
sinusoids (`src/SPICE_Models/wav_to_exp_analytical.py`), and separately
synthesises multi-event damped-sine responses
(`src/scripts/piezo_gui.py`).  This file embeds the arithmetic core of
both programs — the waveform model, the spectral peak extraction, the
initial-guess and fallback logic of the fit, the SPICE text serializer,
and the delayed-event variant — as Lean definitions over ℝ (for the
float arithmetic) and ℚ/String (for the text formatting), and settles
the frozen claims about them.

External library calls are modelled as follows:
* `scipy.optimize.curve_fit` is an oracle: `perform_auto_fit` takes an
  `Option (Fin 8 → ℝ)` argument — `some popt` is a successful return
  value (scipy's contract keeps it inside the requested bounds, which
  the bounds theorems take as a hypothesis), `none` is any raised
  exception (the `except` branch of the code).
* `np.fft.fft` is the textbook DFT `X k = Σ a n · exp (-2πI·k·n/N)`.
* `scipy.signal.find_peaks` with `height` and `distance` is modelled by
  its documented algorithm: interior local maxima (flat plateaus give
  their middle sample), then the height filter (keep magnitudes ≥
  height), then greedy distance selection from the highest peak
  downwards, each kept peak discarding smaller candidates strictly
  closer than `distance` bins.
* Python's fixed-point float formatting `f"{x:.5f}"` is modelled over ℚ
  with round-half-to-even (the IEEE rounding the float print uses), and
  over ℝ with Mathlib's `round` where only the shape of the emitted
  text matters.
-/

noncomputable section

/-! ## The waveform model (wav_to_exp_analytical.py) -/

/-- Embeds `PiezoAutoFitter.dual_damped_sine` (wav_to_exp_analytical.py,
lines 28-34): the sum of two damped sine waves, the model function the
optimizer fits.  Arguments in the source's order `t, a1, d1, f1, p1, a2,
d2, f2, p2`. -/
def dual_damped_sine (t a1 d1 f1 p1 a2 d2 f2 p2 : ℝ) : ℝ :=
  a1 * Real.exp (-d1 * t) * Real.sin (2 * Real.pi * f1 * t + p1) +
    a2 * Real.exp (-d2 * t) * Real.sin (2 * Real.pi * f2 * t + p2)

/-- The function object the code passes to `curve_fit` at line 123 is
`self.dual_damped_sine` itself: the optimizer's residual model. -/
def residualModel : ℝ → ℝ → ℝ → ℝ → ℝ → ℝ → ℝ → ℝ → ℝ → ℝ :=
  dual_damped_sine

/-- The `self.params` dictionary of `PiezoAutoFitter` (lines 19-23):
the two components' parameters plus the global scale. -/
structure FitParams where
  amp1 : ℝ
  decay1 : ℝ
  freq1 : ℝ
  phase1 : ℝ
  amp2 : ℝ
  decay2 : ℝ
  freq2 : ℝ
  phase2 : ℝ
  scale : ℝ

/-- The initial `self.params` values set in `__init__` (lines 19-23). -/
def defaultParams : FitParams :=
  { amp1 := 1, decay1 := 10, freq1 := 100, phase1 := 0,
    amp2 := 0.5, decay2 := 50, freq2 := 400, phase2 := 0, scale := 1 }

/-- Component 1 as recomputed inline by `update_plot` (line 216). -/
def update_plot_c1 (p : FitParams) (t : ℝ) : ℝ :=
  p.amp1 * Real.exp (-p.decay1 * t) * Real.sin (2 * Real.pi * p.freq1 * t + p.phase1)

/-- Component 2 as recomputed inline by `update_plot` (line 217). -/
def update_plot_c2 (p : FitParams) (t : ℝ) : ℝ :=
  p.amp2 * Real.exp (-p.decay2 * t) * Real.sin (2 * Real.pi * p.freq2 * t + p.phase2)

/-- The preview value `total_signal = (c1 + c2) * p['scale']` plotted by
`update_plot` (line 219). -/
def update_plot_total (p : FitParams) (t : ℝ) : ℝ :=
  (update_plot_c1 p t + update_plot_c2 p t) * p.scale

/-! ## Spectral analysis (perform_auto_fit, lines 84-97)

`mag = np.abs(np.fft.fft(data)[:N//2])`, then
`find_peaks(mag, height=np.max(mag)*0.1, distance=50)`, then the peaks
sorted by descending magnitude. -/

/-- Bin `k` of the discrete Fourier transform of the window
(`np.fft.fft`, line 85). -/
def dftPoint (data : List ℝ) (k : ℕ) : ℂ :=
  ∑ n ∈ Finset.range data.length,
    (data.getD n 0 : ℂ) *
      Complex.exp (-(2 * Real.pi * Complex.I * k * n) / data.length)

/-- The magnitude spectrum of the lower half of the FFT
(`mag = np.abs(yf[:N//2])`, line 89). -/
def magList (data : List ℝ) : List ℝ :=
  (List.range (data.length / 2)).map fun k => Complex.abs (dftPoint data k)

/-- `np.max` of a list of magnitudes (all entries are nonnegative, so
folding `max` from `0` agrees with numpy's maximum on a nonempty list). -/
def listMax (l : List ℝ) : ℝ := l.foldr max 0

/-- Indexing `mag[i]` (every index the pipeline produces is in range). -/
def magAt (mag : List ℝ) (i : ℕ) : ℝ := mag.getD i 0

/-- Scan of scipy's `_local_maxima_1d`: `prev` is the previous sample
`x[i-1]` and the list holds the samples from position `i` on.  A strict
rise `prev < v` followed — after the flat plateau of samples equal to
`v` — by a strict fall emits the plateau's middle index `(left + right)
/ 2`; a plateau running to the very end of the signal emits nothing
(scipy stops its scan at `n - 2`).  After a peak the scan resumes just
past the plateau, otherwise it advances one sample. -/
def lmAux (prev : ℝ) (i : ℕ) : List ℝ → List ℕ
  | [] => []
  | v :: rest =>
    if prev < v then
      if (rest.drop (rest.takeWhile fun w => decide (w = v)).length).length = 0 then []
      else if (rest.drop (rest.takeWhile fun w => decide (w = v)).length).headD 0 < v then
        (i + (i + (rest.takeWhile fun w => decide (w = v)).length)) / 2 ::
          lmAux ((rest.drop (rest.takeWhile fun w => decide (w = v)).length).headD 0)
            (i + (rest.takeWhile fun w => decide (w = v)).length + 2)
            (rest.drop (rest.takeWhile fun w => decide (w = v)).length).tail
      else lmAux v (i + 1) rest
    else lmAux v (i + 1) rest
  termination_by l => l.length
  decreasing_by
    all_goals
      have hpre := (List.takeWhile_prefix (fun w => decide (w = v)) (l := rest)).length_le
      simp only [List.length_tail, List.length_drop, List.length_cons]
      omega

/-- The local maxima of a sequence, as `scipy.signal.find_peaks` first
computes them (the scan starts at position 1, with `x[0]` as the first
previous sample; neither end sample can be a peak). -/
def localMaxima (x : List ℝ) : List ℕ :=
  match x with
  | [] => []
  | x0 :: rest => lmAux x0 1 rest

/-- The `height=np.max(mag)*0.1` filter of `find_peaks` (line 93): keep
candidates whose magnitude is at least the threshold. -/
def heightFiltered (mag : List ℝ) : List ℕ :=
  (localMaxima mag).filter fun i => decide (listMax mag * 0.1 ≤ magAt mag i)

/-- The candidates ordered by descending magnitude (the priority order
of `find_peaks`' distance filter, and the order
`peaks[np.argsort(mag[peaks])[::-1]]` of line 94). -/
def sortedCandidates (mag : List ℝ) : List ℕ :=
  List.insertionSort (fun a b => magAt mag b ≤ magAt mag a) (heightFiltered mag)

/-- The `distance=50` filter of `find_peaks`: walk the candidates from
the highest magnitude down, keep each one and discard every remaining
candidate strictly closer than `d` bins to it.  Fuel equal to the
initial list length always suffices, since every step consumes the
head. -/
def greedySelect (d : ℕ) : ℕ → List ℕ → List ℕ
  | 0, _ => []
  | _, [] => []
  | fuel + 1, c :: cs =>
    c :: greedySelect d fuel (cs.filter fun j => decide (d ≤ Nat.dist c j))

/-- The surviving peak indices, by descending magnitude. -/
def peaksOfMag (mag : List ℝ) : List ℕ :=
  greedySelect 50 (sortedCandidates mag).length (sortedCandidates mag)

/-- `sorted_peak_indices` of line 94, computed from the window. -/
def sortedPeakIdx (data : List ℝ) : List ℕ := peaksOfMag (magList data)

/-- The frequency axis `freqs[k] = k * sample_rate / N`
(`np.fft.fftfreq`, line 86, positive side). -/
def freqAt (data : List ℝ) (rate : ℝ) (k : ℕ) : ℝ := k * rate / data.length

/-- The spectral analysis result: the surviving peaks as (frequency,
magnitude) pairs ordered by descending magnitude. -/
def analyze (data : List ℝ) (rate : ℝ) : List (ℝ × ℝ) :=
  (sortedPeakIdx data).map fun k => (freqAt data rate k, magAt (magList data) k)

/-! ## Initial guesses and the fit (perform_auto_fit, lines 96-132) -/

/-- `max_amp = np.max(np.abs(self.data))` (line 105). -/
def maxAbsSample (data : List ℝ) : ℝ := (data.map fun x => |x|).foldr max 0

/-- `guess_f1` (line 97): the dominant peak's frequency, 100 Hz if no
peak was found. -/
def guessF1 (data : List ℝ) (rate : ℝ) : ℝ :=
  match sortedPeakIdx data with
  | [] => 100
  | i :: _ => freqAt data rate i

/-- `guess_f2` (lines 100-102): the second peak's frequency, or twice
`guess_f1` when fewer than two peaks were found. -/
def guessF2 (data : List ℝ) (rate : ℝ) : ℝ :=
  match sortedPeakIdx data with
  | _ :: j :: _ => freqAt data rate j
  | _ => guessF1 data rate * 2

/-- `guess_a1 = max_amp * 0.7` (line 106). -/
def guessA1 (data : List ℝ) : ℝ := maxAbsSample data * 0.7

/-- `guess_a2 = max_amp * 0.3` (line 107). -/
def guessA2 (data : List ℝ) : ℝ := maxAbsSample data * 0.3

/-- `guess_d1 = 20.0` (line 110), the seed decay of component 1. -/
def guessD1 : ℝ := 20

/-- `guess_d2 = 50.0` (line 111), the seed decay of component 2. -/
def guessD2 : ℝ := 50

/-- The initial-guess vector `p0` (lines 114-115), in `curve_fit`'s
parameter order `a1, d1, f1, p1, a2, d2, f2, p2`. -/
def initialP0 (data : List ℝ) (rate : ℝ) : Fin 8 → ℝ := fun i =>
  match i with
  | 0 => guessA1 data
  | 1 => guessD1
  | 2 => guessF1 data rate
  | 3 => 0
  | 4 => guessA2 data
  | 5 => guessD2
  | 6 => guessF2 data rate
  | 7 => 0

/-- The `lower_bounds` array of line 118 (`-np.inf` is `⊥`). -/
def fitLowerBounds : Fin 8 → EReal := fun i =>
  match i with
  | 0 => ⊥
  | 1 => ((0 : ℝ) : EReal)
  | 2 => ((1 : ℝ) : EReal)
  | 3 => ((-Real.pi : ℝ) : EReal)
  | 4 => ⊥
  | 5 => ((0 : ℝ) : EReal)
  | 6 => ((1 : ℝ) : EReal)
  | 7 => ((-Real.pi : ℝ) : EReal)

/-- The `upper_bounds` array of line 119 (`np.inf` is `⊤`). -/
def fitUpperBounds : Fin 8 → EReal := fun i =>
  match i with
  | 0 => ⊤
  | 1 => ((1000 : ℝ) : EReal)
  | 2 => ((20000 : ℝ) : EReal)
  | 3 => ((Real.pi : ℝ) : EReal)
  | 4 => ⊤
  | 5 => ((1000 : ℝ) : EReal)
  | 6 => ((20000 : ℝ) : EReal)
  | 7 => ((Real.pi : ℝ) : EReal)

/-- A parameter vector lies inside the box `curve_fit` is given. -/
def inBounds (q : Fin 8 → ℝ) : Prop :=
  ∀ i, fitLowerBounds i ≤ (q i : EReal) ∧ (q i : EReal) ≤ fitUpperBounds i

/-- A sample optimizer result inside the box (used to instantiate the
bounds theorem at a concrete input). -/
def inBoxVector : Fin 8 → ℝ := fun i =>
  match i with
  | 0 => 1
  | 1 => 10
  | 2 => 100
  | 3 => 0
  | 4 => 1
  | 5 => 10
  | 6 => 100
  | 7 => 0

/-- Embeds `perform_auto_fit` (lines 80-132) as a function of the state
it reads and writes: `prior` is `self.params` before the call, `data`
and `rate` the loaded window, and `outcome` the oracle for the
`curve_fit` call — `some popt` for a successful return, `none` for any
raised exception.  On success all eight component parameters are
overwritten from `popt` (lines 126-127); on failure only the two
frequencies are overwritten from the spectral guesses (lines 131-132).
The returned flag records which branch ran; the function is total, so
no `curve_fit` failure propagates to the caller.  The embedding models
calls on windows satisfying the WaveformWindow invariant (length ≥ 2):
on a shorter window the source instead raises before the `try` —
`np.max` of the empty magnitude spectrum at line 93 — an error path
this total function does not represent. -/
def perform_auto_fit (prior : FitParams) (data : List ℝ) (rate : ℝ)
    (outcome : Option (Fin 8 → ℝ)) : FitParams × Bool :=
  match outcome with
  | some q =>
    ({ amp1 := q 0, decay1 := q 1, freq1 := q 2, phase1 := q 3,
       amp2 := q 4, decay2 := q 5, freq2 := q 6, phase2 := q 7,
       scale := prior.scale }, true)
  | none =>
    ({ prior with freq1 := guessF1 data rate, freq2 := guessF2 data rate }, false)

/-! ## The delayed-event variant (piezo_gui.py) -/

/-- Embeds `PiezoSimulator.calculate_signal` (piezo_gui.py, lines
339-356) at a single time point: `delay` arrives in milliseconds and is
divided by 1000; the response is zero off the mask `t >= delay` and
`amplitude * exp(-alpha*(t-delay)) * sin(omega*phase_factor*(t-delay))`
on it, with `omega = 2*pi*freq`, `alpha = zeta*omega`,
`phase_factor = sqrt(1 - zeta**2)`. -/
def calculate_signal (amplitude delayMs freq zeta t : ℝ) : ℝ :=
  if delayMs / 1000 ≤ t then
    amplitude * Real.exp (-(zeta * (2 * Real.pi * freq)) * (t - delayMs / 1000)) *
      Real.sin ((2 * Real.pi * freq) * Real.sqrt (1 - zeta ^ 2) * (t - delayMs / 1000))
  else 0

/-- The value of the expression `generate_spice_model` (piezo_gui.py,
lines 510-525) emits for one component: the same damped sine, but gated
by the simulator's strict causal indicator `((time - delay) > 0)`,
which multiplies by 1 or 0. -/
def spiceGatedTerm (amplitude delayMs freq zeta t : ℝ) : ℝ :=
  (amplitude * Real.exp (-(zeta * (2 * Real.pi * freq)) * (t - delayMs / 1000)) *
      Real.sin ((2 * Real.pi * freq) * Real.sqrt (1 - zeta ^ 2) * (t - delayMs / 1000))) *
    (if 0 < t - delayMs / 1000 then 1 else 0)

end

/-! ## Fixed-point decimal formatting

Python's `f"{x:.Nf}"` renders a float as sign, integer digits, a dot and
exactly `N` fractional digits, rounding half to even.  Floats are exact
rationals, so the serializer claims are settled over ℚ; the display of
the delayed-event model's irrational coefficients uses the same shape
over ℝ. -/

/-- The decimal digit character for `d < 10`. -/
def digitChar (d : ℕ) : Char := Char.ofNat (48 + d)

/-- Decimal digits of `n`, most significant first; any `fuel > n`
suffices. -/
def natDigits : ℕ → ℕ → List Char
  | 0, _ => []
  | fuel + 1, n =>
    if n < 10 then [digitChar n] else natDigits fuel (n / 10) ++ [digitChar (n % 10)]

/-- Decimal representation of a natural number. -/
def natStr (n : ℕ) : String := ⟨natDigits (n + 1) n⟩

/-- Left-pad a digit list with zeros to length `prec`. -/
def padZeros (prec : ℕ) (l : List Char) : List Char :=
  List.replicate (prec - l.length) '0' ++ l

/-- Round half to even, the rounding IEEE floats (and hence Python's
fixed-point formatting of them) apply. -/
def rhe {α : Type} [LinearOrderedField α] [FloorRing α] (x : α) : ℤ :=
  if x - ⌊x⌋ < 1 / 2 then ⌊x⌋
  else if 1 / 2 < x - ⌊x⌋ then ⌊x⌋ + 1
  else if ⌊x⌋ % 2 = 0 then ⌊x⌋ else ⌊x⌋ + 1

/-- Assemble a fixed-point numeral from its sign, the absolute value of
the scaled and rounded integer `m`, and the number of fractional
digits. -/
def fixedOfParts (neg : Bool) (m : ℕ) (prec : ℕ) : String :=
  (if neg then "-" else "") ++ natStr (m / 10 ^ prec) ++ "." ++
    ⟨padZeros prec (natDigits (m % 10 ^ prec + 1) (m % 10 ^ prec))⟩

/-- Python's `f"{x:.precf}"` over ℚ. -/
def fmtQ (prec : ℕ) (x : ℚ) : String :=
  fixedOfParts (decide (x < 0)) (rhe (x * 10 ^ prec)).natAbs prec

/-- The value of a digit list read as a decimal numeral. -/
def parseDigits (l : List Char) : ℕ :=
  l.foldl (fun acc c => 10 * acc + (c.toNat - 48)) 0

/-- The value of an unsigned fixed-point numeral `digits.digits`. -/
def parseFixedAux (l : List Char) : ℚ :=
  parseDigits (l.takeWhile fun c => decide (c ≠ '.')) +
    (parseDigits ((l.dropWhile fun c => decide (c ≠ '.')).drop 1) : ℚ) /
      10 ^ ((l.dropWhile fun c => decide (c ≠ '.')).drop 1).length

/-- Re-parse a fixed-point numeral string back into the rational it
denotes — the substitution a simulator performs when it reads the
emitted expression. -/
def parseFixed (s : String) : ℚ :=
  if s.data.take 1 = ['-'] then -parseFixedAux (s.data.drop 1)
  else parseFixedAux s.data

/-- Quantization to `prec` fractional decimal digits: the value a field
denotes after being formatted and re-parsed. -/
def quantQ (prec : ℕ) (x : ℚ) : ℚ := (rhe (x * 10 ^ prec) : ℚ) / 10 ^ prec

/-! ## The SPICE serializer of wav_to_exp_analytical.py (lines 232-272) -/

/-- The slider state as the serializer reads it; float fields are exact
rationals. -/
structure QParams where
  amp1 : ℚ
  decay1 : ℚ
  freq1 : ℚ
  phase1 : ℚ
  amp2 : ℚ
  decay2 : ℚ
  freq2 : ℚ
  phase2 : ℚ
  scale : ℚ

/-- The same state read as real model parameters. -/
noncomputable def QParams.toFitParams (p : QParams) : FitParams :=
  { amp1 := p.amp1, decay1 := p.decay1, freq1 := p.freq1, phase1 := p.phase1,
    amp2 := p.amp2, decay2 := p.decay2, freq2 := p.freq2, phase2 := p.phase2,
    scale := p.scale }

/-- One component expression of `export_spice` as a function of the
four numbers that appear in it — note it has no scale slot: the literal
`6.283185` stands for 2π and every field is formatted with 5 decimals. -/
def spiceComp (a d f ph : ℚ) : String :=
  fmtQ 5 a ++ " * exp(-" ++ fmtQ 5 d ++ " * time) * sin(6.283185 * " ++
    fmtQ 5 f ++ " * time + " ++ fmtQ 5 ph ++ ")"

/-- The `comp1` string of `export_spice` (lines 240-245): the scale is
multiplied into the amplitude (`a1_final = p['amp1'] * p['scale']`)
before formatting. -/
def export_comp1 (p : QParams) : String :=
  fmtQ 5 (p.amp1 * p.scale) ++ " * exp(-" ++ fmtQ 5 p.decay1 ++
    " * time) * sin(6.283185 * " ++ fmtQ 5 p.freq1 ++ " * time + " ++
    fmtQ 5 p.phase1 ++ ")"

/-- The `comp2` string of `export_spice` (lines 241-248). -/
def export_comp2 (p : QParams) : String :=
  fmtQ 5 (p.amp2 * p.scale) ++ " * exp(-" ++ fmtQ 5 p.decay2 ++
    " * time) * sin(6.283185 * " ++ fmtQ 5 p.freq2 ++ " * time + " ++
    fmtQ 5 p.phase2 ++ ")"

/-- The full `.sub` text as a function of the eight numbers that appear
in it — again with no scale slot anywhere. -/
def contentTemplate (a1 d1 f1 ph1 a2 d2 f2 ph2 : ℚ) : String :=
  "\n.SUBCKT CUSTOM_PIEZO out gnd\n\n* Generated Automated Model\n" ++
    "* Dual-Component Damped Sine Approximation\n* Component 1: F=" ++
    fmtQ 1 f1 ++ "Hz, Decay=" ++ fmtQ 1 d1 ++ "\n* Component 2: F=" ++
    fmtQ 1 f2 ++ "Hz, Decay=" ++ fmtQ 1 d2 ++ "\n\nE1 out gnd VALUE=\x7b\n+ " ++
    spiceComp a1 d1 f1 ph1 ++ " \n+ + \n+ " ++ spiceComp a2 d2 f2 ph2 ++
    "\n+ \x7d\n\n.ENDS CUSTOM_PIEZO\n"

/-- The `content` string written by `export_spice` (lines 253-268). -/
def export_content (p : QParams) : String :=
  "\n.SUBCKT CUSTOM_PIEZO out gnd\n\n* Generated Automated Model\n" ++
    "* Dual-Component Damped Sine Approximation\n* Component 1: F=" ++
    fmtQ 1 p.freq1 ++ "Hz, Decay=" ++ fmtQ 1 p.decay1 ++ "\n* Component 2: F=" ++
    fmtQ 1 p.freq2 ++ "Hz, Decay=" ++ fmtQ 1 p.decay2 ++ "\n\nE1 out gnd VALUE=\x7b\n+ " ++
    export_comp1 p ++ " \n+ + \n+ " ++ export_comp2 p ++
    "\n+ \x7d\n\n.ENDS CUSTOM_PIEZO\n"

noncomputable section

/-- The value a component expression denotes once its four emitted
numeral strings are parsed back and `time` is substituted: the nested
`parseFixed (fmtQ 5 _)` is exactly "re-parse what the serializer
printed". -/
def reparseComp (a d f ph : ℚ) (t : ℝ) : ℝ :=
  (parseFixed (fmtQ 5 a) : ℝ) * Real.exp (-(parseFixed (fmtQ 5 d) : ℝ) * t) *
    Real.sin (6.283185 * (parseFixed (fmtQ 5 f) : ℝ) * t + (parseFixed (fmtQ 5 ph) : ℝ))

/-- The value of the whole emitted `VALUE={comp1 + comp2}` expression at
time `t`, re-parsed. -/
def reparseExport (p : QParams) (t : ℝ) : ℝ :=
  reparseComp (p.amp1 * p.scale) p.decay1 p.freq1 p.phase1 t +
    reparseComp (p.amp2 * p.scale) p.decay2 p.freq2 p.phase2 t

/-- One component of the model evaluated with every field quantized to
5 decimals and 2π replaced by the emitted literal `6.283185`. -/
def quantComp (a d f ph : ℚ) (t : ℝ) : ℝ :=
  (quantQ 5 a : ℝ) * Real.exp (-(quantQ 5 d : ℝ) * t) *
    Real.sin (6.283185 * (quantQ 5 f : ℝ) * t + (quantQ 5 ph : ℝ))

/-- Python's `f"{x:.precf}"` over ℝ (the delayed-event serializer
formats irrational coefficients, so this lives on ℝ). -/
def fmtR (prec : ℕ) (x : ℝ) : String :=
  fixedOfParts (decide (x < 0)) (rhe (x * 10 ^ prec)).natAbs prec

/-- One emitted term of `generate_spice_model` (piezo_gui.py, lines
510-525): `alpha = zeta*omega` with 8 decimals, `omega` and
`phase_factor = sqrt(1-zeta**2)` with 8 decimals, the delay (converted
to seconds) with 6 decimals, the amplitude with 1 decimal, gated by the
strict `((time - delay) > 0)` indicator. -/
def spiceModelTerm (amplitude delayMs freq zeta : ℝ) : String :=
  fmtR 1 amplitude ++ " * exp(-" ++ fmtR 8 (zeta * (2 * Real.pi * freq)) ++
    " * (time - " ++ fmtR 6 (delayMs / 1000) ++ ")) * sin(" ++
    fmtR 8 (2 * Real.pi * freq) ++ " * " ++ fmtR 8 (Real.sqrt (1 - zeta ^ 2)) ++
    " * (time - " ++ fmtR 6 (delayMs / 1000) ++ ")) * ((time - " ++
    fmtR 6 (delayMs / 1000) ++ ") > 0)"

end

/-- The scale-distribution example of the spec: `amplitude = 1.5`,
`global_scale = 2.0`. -/
def scaleDemoParams : QParams :=
  { amp1 := 3 / 2, decay1 := 20, freq1 := 100, phase1 := 0,
    amp2 := 1 / 2, decay2 := 50, freq2 := 400, phase2 := 0, scale := 2 }

/-- A parameter set whose amplitude is not representable with 5 decimal
digits: serializing rounds `0.500004` down to `0.50000`, an absolute
error of `4·10⁻⁶` in the re-parsed waveform at its crest. -/
def roundtripCexParams : QParams :=
  { amp1 := 0.500004, decay1 := 0, freq1 := 1, phase1 := 0,
    amp2 := 0, decay2 := 0, freq2 := 1, phase2 := 0, scale := 1 }

noncomputable section

/-- A sample of a two-tone test signal: the sum of a cosine making 4
cycles and a half-amplitude cosine making 2 cycles over a 12-sample
window, so the magnitude spectrum has exactly two spectral lines, at
bins 4 and 2. -/
def twoToneFn (n : ℕ) : ℝ :=
  1 / 2 * Real.cos (2 * Real.pi * (2 * n) / 12) + Real.cos (2 * Real.pi * (4 * n) / 12)

/-- The 12-sample two-tone window used to test the peak extraction. -/
def twoToneWindow : List ℝ := (List.range 12).map twoToneFn

/-- The twelfth root of unity `exp(2πi·j/12)`, the building block of
the window's DFT. -/
def rootPow (j : ℤ) : ℂ := Complex.exp (2 * Real.pi * Complex.I * j / 12)

/-- Modelled from the spec: the peak sequence the claim describes —
exactly those (interior, strict) local maxima of the magnitude list
whose magnitude exceeds 10% of the global maximum, ordered by
descending magnitude, with no distance-based dropping. -/
def claimPeaks (mag : List ℝ) : List ℕ :=
  List.insertionSort (fun a b => magAt mag b ≤ magAt mag a)
    ((List.range mag.length).filter fun i =>
      decide (1 ≤ i) && decide (i + 1 < mag.length) &&
        decide (magAt mag (i - 1) < magAt mag i) &&
        decide (magAt mag (i + 1) < magAt mag i) &&
        decide (listMax mag * 0.1 < magAt mag i))

end

/-! ## Digit and fixed-point formatting lemmas -/

theorem digitChar_toNat {d : ℕ} (h : d < 10) : (digitChar d).toNat = 48 + d := by
  interval_cases d <;> rfl

theorem digitChar_ne_dot {d : ℕ} (h : d < 10) : digitChar d ≠ '.' := by
  interval_cases d <;> decide

theorem digitChar_ne_dash {d : ℕ} (h : d < 10) : digitChar d ≠ '-' := by
  interval_cases d <;> decide

theorem natDigits_mem {fuel n : ℕ} {c : Char} (hc : c ∈ natDigits fuel n) :
    ∃ d, d < 10 ∧ c = digitChar d := by
  induction fuel generalizing n with
  | zero => simp [natDigits] at hc
  | succ fuel ih =>
    rw [natDigits] at hc
    by_cases h : n < 10
    · rw [if_pos h] at hc
      simp only [List.mem_singleton] at hc
      exact ⟨n, h, hc⟩
    · rw [if_neg h] at hc
      rcases List.mem_append.mp hc with h1 | h1
      · exact ih h1
      · simp only [List.mem_singleton] at h1
        exact ⟨n % 10, Nat.mod_lt _ (by norm_num), h1⟩

theorem natDigits_ne_nil {fuel n : ℕ} (h : n < fuel) : natDigits fuel n ≠ [] := by
  cases fuel with
  | zero => omega
  | succ fuel =>
    rw [natDigits]
    split <;> simp

theorem parseDigits_snoc (l : List Char) (c : Char) :
    parseDigits (l ++ [c]) = 10 * parseDigits l + (c.toNat - 48) := by
  unfold parseDigits
  rw [List.foldl_append]
  rfl

theorem parseDigits_natDigits : ∀ fuel n, n < fuel → parseDigits (natDigits fuel n) = n := by
  intro fuel
  induction fuel with
  | zero => omega
  | succ fuel ih =>
    intro n h
    rw [natDigits]
    by_cases hn : n < 10
    · rw [if_pos hn]
      have : parseDigits [digitChar n] = 10 * 0 + ((digitChar n).toNat - 48) := rfl
      rw [this, digitChar_toNat hn]
      omega
    · rw [if_neg hn]
      have hdiv : n / 10 < n := Nat.div_lt_self (by omega) (by norm_num)
      rw [parseDigits_snoc, ih (n / 10) (by omega), digitChar_toNat (Nat.mod_lt _ (by norm_num))]
      omega

theorem parseDigits_cons_zero (l : List Char) : parseDigits ('0' :: l) = parseDigits l := by
  unfold parseDigits
  rw [List.foldl_cons]
  norm_num
  rw [show '0'.toNat - 48 = 0 from rfl]

theorem parseDigits_padZeros (p : ℕ) (l : List Char) :
    parseDigits (padZeros p l) = parseDigits l := by
  unfold padZeros
  induction (p - l.length) with
  | zero => rfl
  | succ k ih =>
    rw [List.replicate_succ, List.cons_append, parseDigits_cons_zero]
    exact ih

theorem natDigits_length : ∀ fuel n p, n < fuel → n < 10 ^ p → 0 < p →
    (natDigits fuel n).length ≤ p := by
  intro fuel
  induction fuel with
  | zero => omega
  | succ fuel ih =>
    intro n p h hp hp0
    rw [natDigits]
    by_cases hn : n < 10
    · rw [if_pos hn]
      simpa using hp0
    · rw [if_neg hn]
      have h2 : 2 ≤ p := by
        by_contra hcon
        interval_cases p <;> omega
      have hdiv : n / 10 < n := Nat.div_lt_self (by omega) (by norm_num)
      have hpow : n / 10 < 10 ^ (p - 1) := by
        rw [Nat.div_lt_iff_lt_mul (by norm_num)]
        calc n < 10 ^ p := hp
        _ = 10 ^ (p - 1) * 10 := by
            rw [← pow_succ]
            congr 1
            omega
      have := ih (n / 10) (p - 1) (by omega) hpow (by omega)
      simp only [List.length_append, List.length_singleton]
      omega

theorem padZeros_length {p : ℕ} {l : List Char} (h : l.length ≤ p) :
    (padZeros p l).length = p := by
  simp only [padZeros, List.length_append, List.length_replicate]
  omega

theorem splitAtDot (l1 l2 : List Char)
    (h : ∀ c ∈ l1, ∃ d, d < 10 ∧ c = digitChar d) :
    (l1 ++ '.' :: l2).takeWhile (fun c => decide (c ≠ '.')) = l1 ∧
      (l1 ++ '.' :: l2).dropWhile (fun c => decide (c ≠ '.')) = '.' :: l2 := by
  induction l1 with
  | nil => simp [List.takeWhile, List.dropWhile]
  | cons c t ih =>
    obtain ⟨d, hd, rfl⟩ := h c (by simp)
    have hne : digitChar d ≠ '.' := digitChar_ne_dot hd
    have iht := ih fun c hc => h c (by simp [hc])
    constructor
    · rw [List.cons_append, List.takeWhile_cons_of_pos (by simp [hne]), iht.1]
    · rw [List.cons_append, List.dropWhile_cons_of_pos (by simp [hne]), iht.2]

theorem parseFixedAux_eval (m prec : ℕ) (hp : 0 < prec) :
    parseFixedAux (natDigits (m / 10 ^ prec + 1) (m / 10 ^ prec) ++ '.' ::
        padZeros prec (natDigits (m % 10 ^ prec + 1) (m % 10 ^ prec))) =
      (m : ℚ) / 10 ^ prec := by
  obtain ⟨ht, hd⟩ := splitAtDot _
    (padZeros prec (natDigits (m % 10 ^ prec + 1) (m % 10 ^ prec)))
    (fun c hc => natDigits_mem hc)
  unfold parseFixedAux
  rw [ht, hd, List.drop_one, List.tail_cons,
    parseDigits_natDigits _ _ (Nat.lt_succ_self _), parseDigits_padZeros,
    parseDigits_natDigits _ _ (Nat.lt_succ_self _),
    padZeros_length (natDigits_length _ _ _ (Nat.lt_succ_self _)
      (Nat.mod_lt _ (pow_pos (by norm_num) _)) hp)]
  have h10 : ((10 : ℚ) ^ prec) ≠ 0 := by positivity
  field_simp
  exact_mod_cast Nat.div_add_mod' m (10 ^ prec)

theorem rhe_nonneg {x : ℚ} (h : 0 ≤ x) : 0 ≤ rhe x := by
  unfold rhe
  have h0 : (0 : ℤ) ≤ ⌊x⌋ := Int.floor_nonneg.mpr h
  split_ifs <;> omega

theorem rhe_nonpos {x : ℚ} (h : x < 0) : rhe x ≤ 0 := by
  unfold rhe
  have h0 : ⌊x⌋ < 0 := Int.floor_lt.mpr (by exact_mod_cast h)
  split_ifs <;> omega

theorem fixedOfParts_data (neg : Bool) (m prec : ℕ) :
    (fixedOfParts neg m prec).data =
      (if neg then ['-'] else []) ++ (natDigits (m / 10 ^ prec + 1) (m / 10 ^ prec) ++
        '.' :: padZeros prec (natDigits (m % 10 ^ prec + 1) (m % 10 ^ prec))) := by
  unfold fixedOfParts natStr
  cases neg <;> simp [String.data_append]

theorem take_one_cons {α : Type} (a : α) (l : List α) : (a :: l).take 1 = [a] := rfl

theorem drop_one_cons {α : Type} (a : α) (l : List α) : (a :: l).drop 1 = l := rfl

theorem parseFixed_fmtQ (prec : ℕ) (hp : 0 < prec) (x : ℚ) :
    parseFixed (fmtQ prec x) = quantQ prec x := by
  by_cases hx : x < 0
  · have hm : rhe (x * 10 ^ prec) ≤ 0 :=
      rhe_nonpos (mul_neg_of_neg_of_pos hx (by positivity))
    rw [fmtQ, decide_eq_true hx]
    unfold parseFixed
    rw [fixedOfParts_data]
    simp only [if_true, List.singleton_append]
    rw [take_one_cons, if_pos rfl, drop_one_cons, parseFixedAux_eval _ _ hp, quantQ,
      Int.cast_natAbs, abs_of_nonpos hm]
    push_cast
    ring
  · have hm : 0 ≤ rhe (x * 10 ^ prec) :=
      rhe_nonneg (mul_nonneg (le_of_not_lt hx) (by positivity))
    rw [fmtQ, decide_eq_false hx]
    unfold parseFixed
    rw [fixedOfParts_data]
    simp only [Bool.false_eq_true, if_false, List.nil_append]
    rcases hE : natDigits ((rhe (x * 10 ^ prec)).natAbs / 10 ^ prec + 1)
        ((rhe (x * 10 ^ prec)).natAbs / 10 ^ prec) with _ | ⟨c, t⟩
    · exact absurd hE (natDigits_ne_nil (Nat.lt_succ_self _))
    · obtain ⟨d, hd, rfl⟩ := natDigits_mem (show c ∈ natDigits _ _ by
        rw [hE]; exact List.mem_cons_self c t)
      rw [List.cons_append, take_one_cons,
        if_neg (by simp [digitChar_ne_dash hd]), ← List.cons_append, ← hE,
        parseFixedAux_eval _ _ hp, quantQ, Int.cast_natAbs, abs_of_nonneg hm]

/-- Evaluation helper: once the rounded scaled value of a nonnegative
field is known, the formatted string is a concrete `fixedOfParts`. -/
theorem fmtQ_eval {x : ℚ} {prec m : ℕ} (h1 : ¬x < 0) (h2 : rhe (x * 10 ^ prec) = (m : ℤ)) :
    fmtQ prec x = fixedOfParts false m prec := by
  rw [fmtQ, decide_eq_false h1, h2, Int.natAbs_ofNat]

/-! ## Peak-selection pipeline lemmas -/

theorem greedySelect_subset (d : ℕ) :
    ∀ fuel l, ∀ x ∈ greedySelect d fuel l, x ∈ l := by
  intro fuel
  induction fuel with
  | zero =>
    intro l x hx
    simp [greedySelect] at hx
  | succ fuel ih =>
    intro l x hx
    cases l with
    | nil => simp [greedySelect] at hx
    | cons c cs =>
      rw [greedySelect] at hx
      rcases List.mem_cons.mp hx with rfl | hx2
      · exact List.mem_cons_self _ _
      · exact List.mem_cons_of_mem _ (List.mem_of_mem_filter (ih _ x hx2))

theorem greedySelect_pairwise (d : ℕ) :
    ∀ fuel l, (greedySelect d fuel l).Pairwise fun a b => d ≤ Nat.dist a b := by
  intro fuel
  induction fuel with
  | zero =>
    intro l
    simp [greedySelect]
  | succ fuel ih =>
    intro l
    cases l with
    | nil => simp [greedySelect]
    | cons c cs =>
      rw [greedySelect]
      refine List.Pairwise.cons (fun b hb => ?_) (ih _)
      have hbf := greedySelect_subset d fuel _ b hb
      have := List.of_mem_filter hbf
      simpa using this

theorem greedySelect_sorted {r : ℕ → ℕ → Prop} (d : ℕ) :
    ∀ fuel l, l.Sorted r → (greedySelect d fuel l).Sorted r := by
  intro fuel
  induction fuel with
  | zero =>
    intro l _
    cases l <;> simp [greedySelect]
  | succ fuel ih =>
    intro l hl
    cases l with
    | nil => simp [greedySelect]
    | cons c cs =>
      rw [greedySelect]
      rw [List.sorted_cons] at hl
      refine List.sorted_cons.mpr ⟨fun b hb => ?_, ih _ (List.Pairwise.filter _ hl.2)⟩
      exact hl.1 b (List.mem_of_mem_filter (greedySelect_subset d fuel _ b hb))

theorem sortedCandidates_sorted (mag : List ℝ) :
    (sortedCandidates mag).Sorted fun a b => magAt mag b ≤ magAt mag a := by
  haveI : IsTotal ℕ fun a b => magAt mag b ≤ magAt mag a := ⟨fun a b => le_total _ _⟩
  haveI : IsTrans ℕ fun a b => magAt mag b ≤ magAt mag a :=
    ⟨fun a b c h1 h2 => le_trans h2 h1⟩
  exact List.sorted_insertionSort _ _

theorem peaksOfMag_sorted (mag : List ℝ) :
    (peaksOfMag mag).Sorted fun a b => magAt mag b ≤ magAt mag a :=
  greedySelect_sorted _ _ _ (sortedCandidates_sorted mag)

theorem sortedPeakIdx_sorted (data : List ℝ) :
    (sortedPeakIdx data).Sorted
      fun a b => magAt (magList data) b ≤ magAt (magList data) a :=
  peaksOfMag_sorted (magList data)

theorem peaksOfMag_mem {mag : List ℝ} {i : ℕ} (hi : i ∈ peaksOfMag mag) :
    i ∈ localMaxima mag ∧ listMax mag * 0.1 ≤ magAt mag i := by
  have h1 : i ∈ sortedCandidates mag := greedySelect_subset _ _ _ i hi
  have h2 : i ∈ heightFiltered mag := by
    have hperm := List.perm_insertionSort
      (fun a b => magAt mag b ≤ magAt mag a) (heightFiltered mag)
    exact hperm.mem_iff.mp h1
  refine ⟨List.mem_of_mem_filter h2, ?_⟩
  have := List.of_mem_filter h2
  simpa using this

theorem peaksOfMag_empty {mag : List ℝ}
    (h : ∀ i ∈ localMaxima mag, magAt mag i < listMax mag * 0.1) :
    peaksOfMag mag = [] := by
  have hf : heightFiltered mag = [] := by
    rw [heightFiltered, List.filter_eq_nil_iff]
    intro i hi
    simpa using not_le.mpr (h i hi)
  unfold peaksOfMag sortedCandidates
  rw [hf]
  rfl

/-! ## Evaluating the pipeline on the two-tone window -/

theorem sum_rootPow {j : ℤ} (hj : ¬((12 : ℤ) ∣ j)) :
    ∑ n ∈ Finset.range 12, rootPow j ^ n = 0 := by
  have hx12 : rootPow j ^ 12 = 1 := by
    rw [rootPow, ← Complex.exp_nat_mul,
      show ((12 : ℕ) : ℂ) * (2 * Real.pi * Complex.I * j / 12) =
        j * (2 * Real.pi * Complex.I) by
        push_cast
        ring,
      Complex.exp_int_mul_two_pi_mul_I]
  have hx1 : rootPow j ≠ 1 := by
    intro h
    rw [rootPow, Complex.exp_eq_one_iff] at h
    obtain ⟨n, hn⟩ := h
    apply hj
    have hne : (2 * (Real.pi : ℂ) * Complex.I) ≠ 0 :=
      mul_ne_zero (mul_ne_zero two_ne_zero (Complex.ofReal_ne_zero.mpr Real.pi_ne_zero))
        Complex.I_ne_zero
    have h2 : (2 * (Real.pi : ℂ) * Complex.I) * (j : ℂ) =
        (2 * (Real.pi : ℂ) * Complex.I) * (12 * n) := by
      linear_combination (12 : ℂ) * hn
    have h3 : (j : ℂ) = 12 * n := mul_left_cancel₀ hne h2
    exact ⟨n, by exact_mod_cast h3⟩
  rw [geom_sum_eq hx1, hx12]
  simp

theorem sum_rootPow_zero : ∑ n ∈ Finset.range 12, rootPow 0 ^ n = 12 := by
  simp [rootPow]

theorem twoTone_getD {n : ℕ} (h : n < 12) : twoToneWindow.getD n 0 = twoToneFn n := by
  rw [twoToneWindow, List.getD_eq_getElem?_getD, List.getElem?_map, List.getElem?_range h]
  rfl

theorem twoTone_term (k n : ℕ) :
    (twoToneFn n : ℂ) * Complex.exp (-(2 * Real.pi * Complex.I * k * n) / 12) =
      1 / 4 * rootPow (2 - k) ^ n + 1 / 4 * rootPow (-2 - k) ^ n +
        1 / 2 * rootPow (4 - k) ^ n + 1 / 2 * rootPow (-4 - k) ^ n := by
  have hcos : ∀ z : ℂ, Complex.cos z =
      (Complex.exp (z * Complex.I) + Complex.exp (-z * Complex.I)) / 2 := fun z => by
    linear_combination (Complex.two_cos z) / 2
  have key : ∀ m : ℤ, Complex.exp ((2 * (Real.pi : ℂ) * ((m : ℂ) * n) / 12) * Complex.I) *
      Complex.exp (-(2 * (Real.pi : ℂ) * Complex.I * k * n) / 12) = rootPow (m - k) ^ n := by
    intro m
    rw [rootPow, ← Complex.exp_nat_mul, ← Complex.exp_add]
    congr 1
    push_cast
    ring
  have key2 : ∀ m : ℤ, Complex.exp (-(2 * (Real.pi : ℂ) * ((m : ℂ) * n) / 12) * Complex.I) *
      Complex.exp (-(2 * (Real.pi : ℂ) * Complex.I * k * n) / 12) = rootPow (-m - k) ^ n := by
    intro m
    rw [rootPow, ← Complex.exp_nat_mul, ← Complex.exp_add]
    congr 1
    push_cast
    ring
  have h2 := key 2
  have h2m := key2 2
  have h4 := key 4
  have h4m := key2 4
  push_cast at h2 h2m h4 h4m
  rw [twoToneFn]
  push_cast [Complex.ofReal_cos]
  rw [hcos, hcos]
  linear_combination (1 / 4 : ℂ) * h2 + (1 / 4 : ℂ) * h2m + (1 / 2 : ℂ) * h4 +
    (1 / 2 : ℂ) * h4m

theorem dft_twoTone (k : ℕ) :
    dftPoint twoToneWindow k =
      1 / 4 * (∑ n ∈ Finset.range 12, rootPow (2 - k) ^ n) +
        1 / 4 * (∑ n ∈ Finset.range 12, rootPow (-2 - k) ^ n) +
        1 / 2 * (∑ n ∈ Finset.range 12, rootPow (4 - k) ^ n) +
        1 / 2 * (∑ n ∈ Finset.range 12, rootPow (-4 - k) ^ n) := by
  have hlen : twoToneWindow.length = 12 := by simp [twoToneWindow]
  rw [dftPoint, hlen]
  rw [show ∑ n ∈ Finset.range 12, (twoToneWindow.getD n 0 : ℂ) *
        Complex.exp (-(2 * Real.pi * Complex.I * k * n) / ((12 : ℕ) : ℂ)) =
      ∑ n ∈ Finset.range 12, (1 / 4 * rootPow (2 - k) ^ n + 1 / 4 * rootPow (-2 - k) ^ n +
        1 / 2 * rootPow (4 - k) ^ n + 1 / 2 * rootPow (-4 - k) ^ n) from
    Finset.sum_congr rfl fun n hn => by
      rw [twoTone_getD (Finset.mem_range.mp hn),
        show ((12 : ℕ) : ℂ) = (12 : ℂ) by push_cast; ring, twoTone_term k n]]
  simp [Finset.sum_add_distrib, ← Finset.mul_sum]

theorem dft_twoTone_0 : dftPoint twoToneWindow 0 = 0 := by
  rw [dft_twoTone 0]
  rw [sum_rootPow (by norm_num), sum_rootPow (by norm_num), sum_rootPow (by norm_num),
    sum_rootPow (by norm_num)]
  ring

theorem dft_twoTone_1 : dftPoint twoToneWindow 1 = 0 := by
  rw [dft_twoTone 1]
  rw [sum_rootPow (by norm_num), sum_rootPow (by norm_num), sum_rootPow (by norm_num),
    sum_rootPow (by norm_num)]
  ring

theorem dft_twoTone_2 : dftPoint twoToneWindow 2 = 3 := by
  rw [dft_twoTone 2]
  rw [show ((2 : ℤ) - ((2 : ℕ) : ℤ)) = 0 by norm_num, sum_rootPow_zero,
    sum_rootPow (by norm_num), sum_rootPow (by norm_num), sum_rootPow (by norm_num)]
  ring

theorem dft_twoTone_3 : dftPoint twoToneWindow 3 = 0 := by
  rw [dft_twoTone 3]
  rw [sum_rootPow (by norm_num), sum_rootPow (by norm_num), sum_rootPow (by norm_num),
    sum_rootPow (by norm_num)]
  ring

theorem dft_twoTone_4 : dftPoint twoToneWindow 4 = 6 := by
  rw [dft_twoTone 4]
  rw [show ((4 : ℤ) - ((4 : ℕ) : ℤ)) = 0 by norm_num, sum_rootPow_zero,
    sum_rootPow (by norm_num), sum_rootPow (by norm_num), sum_rootPow (by norm_num)]
  ring

theorem dft_twoTone_5 : dftPoint twoToneWindow 5 = 0 := by
  rw [dft_twoTone 5]
  rw [sum_rootPow (by norm_num), sum_rootPow (by norm_num), sum_rootPow (by norm_num),
    sum_rootPow (by norm_num)]
  ring

theorem magList_twoTone : magList twoToneWindow = [0, 0, 3, 0, 6, 0] := by
  have hlen : twoToneWindow.length = 12 := by simp [twoToneWindow]
  rw [magList, hlen, show (12 : ℕ) / 2 = 6 from rfl,
    show List.range 6 = [0, 1, 2, 3, 4, 5] from rfl]
  simp only [List.map_cons, List.map_nil]
  rw [dft_twoTone_0, dft_twoTone_1, dft_twoTone_2, dft_twoTone_3, dft_twoTone_4,
    dft_twoTone_5]
  norm_num [map_zero, Complex.abs_ofNat]

theorem localMaxima_twoTone : localMaxima ([0, 0, 3, 0, 6, 0] : List ℝ) = [2, 4] := by
  norm_num [localMaxima, lmAux]

theorem peaks_twoTone : sortedPeakIdx twoToneWindow = [4] := by
  have h2 : listMax ([0, 0, 3, 0, 6, 0] : List ℝ) = 6 := by
    norm_num [listMax, max_def]
  have h3 : heightFiltered ([0, 0, 3, 0, 6, 0] : List ℝ) = [2, 4] := by
    rw [heightFiltered, localMaxima_twoTone, h2]
    norm_num [magAt, List.getD]
  have h4 : sortedCandidates ([0, 0, 3, 0, 6, 0] : List ℝ) = [4, 2] := by
    rw [sortedCandidates, h3]
    norm_num [List.insertionSort, List.orderedInsert, magAt, List.getD]
  rw [sortedPeakIdx, magList_twoTone, peaksOfMag, h4]
  norm_num [greedySelect, Nat.dist]

theorem claimPeaks_twoTone : claimPeaks (magList twoToneWindow) = [4, 2] := by
  rw [magList_twoTone, claimPeaks,
    show ([0, 0, 3, 0, 6, 0] : List ℝ).length = 6 from rfl,
    show List.range 6 = [0, 1, 2, 3, 4, 5] from rfl]
  norm_num [magAt, List.getD, listMax, max_def, List.insertionSort, List.orderedInsert]

/-! ## Claim theorems (first group) -/

/-- C2.  Model definition: the preview value computed by `update_plot`
equals `global_scale` times the two-component damped-sinusoid sum, that
sum is exactly `dual_damped_sine`, and `dual_damped_sine` — the very
function object handed to the optimizer as residual model — expands to
`Σᵢ aᵢ · exp(−dᵢ·t) · sin(2π·fᵢ·t + pᵢ)`. -/
theorem C2_model_definition (p : FitParams) (t a1 d1 f1 p1 a2 d2 f2 p2 : ℝ) :
    update_plot_total p t =
      p.scale *
        dual_damped_sine t p.amp1 p.decay1 p.freq1 p.phase1 p.amp2 p.decay2 p.freq2 p.phase2 ∧
    residualModel t a1 d1 f1 p1 a2 d2 f2 p2 =
      a1 * Real.exp (-d1 * t) * Real.sin (2 * Real.pi * f1 * t + p1) +
        a2 * Real.exp (-d2 * t) * Real.sin (2 * Real.pi * f2 * t + p2) := by
  constructor
  · simp only [update_plot_total, update_plot_c1, update_plot_c2, dual_damped_sine]
    ring
  · rfl

/-- C9.  Frame condition on `global_scale`: the fit never writes the
scale — both the converged branch and the fallback branch of
`perform_auto_fit` return it unchanged — and its initial value in
`__init__` is 1.0. -/
theorem C9_scale_frame (prior : FitParams) (data : List ℝ) (rate : ℝ)
    (outcome : Option (Fin 8 → ℝ)) :
    (perform_auto_fit prior data rate outcome).1.scale = prior.scale ∧
      defaultParams.scale = 1 := by
  refine ⟨?_, rfl⟩
  cases outcome <;> rfl

/-- C8.  Delayed-event variant: for a damping ratio `ζ ∈ (0,1)`, the
in-memory evaluator `calculate_signal` computes exactly the
strictly-gated term
`A · exp(−ζω·(t−delay)) · sin(ω·√(1−ζ²)·(t−delay)) · [(t−delay) > 0]`
with `ω = 2πf` (so it contributes nothing at or before `t = delay`),
and the serialized expression is that same term: its `alpha` slot
holds `ζ·ω`, its frequency slots hold `ω` and `√(1−ζ²)`, and it is
gated by the strict `((time - delay) > 0)` indicator. -/
theorem C8_delayed_variant (A dm f ζ t : ℝ) (h0 : 0 < ζ) (h1 : ζ < 1) :
    calculate_signal A dm f ζ t = spiceGatedTerm A dm f ζ t ∧
    (t ≤ dm / 1000 → calculate_signal A dm f ζ t = 0) ∧
    spiceModelTerm A dm f ζ =
      fmtR 1 A ++ " * exp(-" ++ fmtR 8 (ζ * (2 * Real.pi * f)) ++
        " * (time - " ++ fmtR 6 (dm / 1000) ++ ")) * sin(" ++
        fmtR 8 (2 * Real.pi * f) ++ " * " ++ fmtR 8 (Real.sqrt (1 - ζ ^ 2)) ++
        " * (time - " ++ fmtR 6 (dm / 1000) ++ ")) * ((time - " ++
        fmtR 6 (dm / 1000) ++ ") > 0)" := by
  refine ⟨?_, ?_, rfl⟩
  · unfold calculate_signal spiceGatedTerm
    rcases lt_trichotomy (dm / 1000) t with hlt | heq | hgt
    · rw [if_pos hlt.le, if_pos (by linarith), mul_one]
    · rw [if_pos heq.le, if_neg (by rw [heq]; simp), ← heq]
      simp
    · rw [if_neg (by linarith), if_neg (by linarith), mul_zero]
  · intro ht
    unfold calculate_signal
    rcases eq_or_lt_of_le ht with heq | hlt
    · subst heq
      rw [if_pos le_rfl]
      simp
    · rw [if_neg (by linarith)]

/-- Witness for C8 at `A = 1`, `delay = 0`, `f = 1`, `ζ = 1/2`,
`t = 1`. -/
theorem C8_delayed_variant_witness :
    calculate_signal 1 0 1 (1 / 2) 1 = spiceGatedTerm 1 0 1 (1 / 2) 1 :=
  (C8_delayed_variant 1 0 1 (1 / 2) 1 (by norm_num) (by norm_num)).1

/-- C10.  Implicit refinement: the in-memory evaluator gates each term
with the non-strict mask `t >= delay` while the serialized expression
gates with the strict indicator `(t - delay) > 0`; for every parameter
choice with `ζ ∈ (0,1)` the two agree at every `t`, because at
`t = delay` the ungated term is `A · exp(−α·0) · sin(ω·√(1−ζ²)·0) = 0`
— both gatings also give exactly 0 there. -/
theorem C10_gating_refinement (A dm f ζ t : ℝ) (h0 : 0 < ζ) (h1 : ζ < 1) :
    calculate_signal A dm f ζ t = spiceGatedTerm A dm f ζ t ∧
    calculate_signal A dm f ζ (dm / 1000) = 0 ∧
    spiceGatedTerm A dm f ζ (dm / 1000) = 0 := by
  refine ⟨?_, ?_, ?_⟩
  · unfold calculate_signal spiceGatedTerm
    rcases lt_trichotomy (dm / 1000) t with hlt | heq | hgt
    · rw [if_pos hlt.le, if_pos (by linarith), mul_one]
    · rw [if_pos heq.le, if_neg (by rw [heq]; simp), ← heq]
      simp
    · rw [if_neg (by linarith), if_neg (by linarith), mul_zero]
  · unfold calculate_signal
    rw [if_pos le_rfl]
    simp
  · unfold spiceGatedTerm
    simp

/-- Witness for C10 at `A = 2`, `delay = 1000` ms, `f = 3`, `ζ = 1/2`,
`t = 0`. -/
theorem C10_gating_refinement_witness :
    calculate_signal 2 1000 3 (1 / 2) 0 = spiceGatedTerm 2 1000 3 (1 / 2) 0 :=
  (C10_gating_refinement 2 1000 3 (1 / 2) 0 (by norm_num) (by norm_num)).1

/-- C3, counterexample.  The claim says the fallback path leaves
amplitude, decay and phase at the *seed* values (`guess_a1 = 0.7 ·
max_amp`, `guess_d1 = 20.0`, …).  It does not: the `except` branch of
`perform_auto_fit` (lines 129-132) writes only the two frequencies, so
amplitude and decay stay at whatever `self.params` held before the fit
— here the `__init__` defaults `amp1 = 1.0`, `decay1 = 10.0`, while
the seeds for the two-sample window `[1/2, 1/2]` (a window satisfying
the length ≥ 2 invariant, on which the fit's `except` branch is
reachable) are `guess_a1 = 0.35` and `guess_d1 = 20`. -/
theorem C3_counterexample :
    (perform_auto_fit defaultParams [(1 : ℝ) / 2, (1 : ℝ) / 2] 100 none).1.decay1 ≠
      guessD1 ∧
    (perform_auto_fit defaultParams [(1 : ℝ) / 2, (1 : ℝ) / 2] 100 none).1.amp1 ≠
      guessA1 [(1 : ℝ) / 2, (1 : ℝ) / 2] ∧
    (perform_auto_fit defaultParams [(1 : ℝ) / 2, (1 : ℝ) / 2] 100 none).2 = false := by
  refine ⟨?_, ?_, rfl⟩
  · show defaultParams.decay1 ≠ guessD1
    rw [defaultParams, guessD1]
    norm_num
  · show defaultParams.amp1 ≠ guessA1 [(1 : ℝ) / 2, (1 : ℝ) / 2]
    rw [defaultParams, guessA1, maxAbsSample]
    simp only [List.map_cons, List.map_nil, List.foldr_cons, List.foldr_nil]
    rw [abs_of_pos (by norm_num : (0 : ℝ) < 1 / 2),
      max_eq_left (by norm_num : (0 : ℝ) ≤ 1 / 2), max_self]
    norm_num

/-- C3, amended.  Whenever the bounded least-squares refinement fails
for any reason, `perform_auto_fit` raises nothing (the embedding is a
total function of the oracle's `none` outcome): it reports
`converged = false`, sets the two component frequencies to the
initial-guess frequencies, and leaves amplitude, decay, phase — and the
scale — unchanged at their values from before the fit (the `__init__`
defaults on a fresh session), not at the computed seed values. -/
theorem C3_fallback_amended (prior : FitParams) (data : List ℝ) (rate : ℝ) :
    (perform_auto_fit prior data rate none).2 = false ∧
    (perform_auto_fit prior data rate none).1.freq1 = guessF1 data rate ∧
    (perform_auto_fit prior data rate none).1.freq2 = guessF2 data rate ∧
    (perform_auto_fit prior data rate none).1.amp1 = prior.amp1 ∧
    (perform_auto_fit prior data rate none).1.decay1 = prior.decay1 ∧
    (perform_auto_fit prior data rate none).1.phase1 = prior.phase1 ∧
    (perform_auto_fit prior data rate none).1.amp2 = prior.amp2 ∧
    (perform_auto_fit prior data rate none).1.decay2 = prior.decay2 ∧
    (perform_auto_fit prior data rate none).1.phase2 = prior.phase2 ∧
    (perform_auto_fit prior data rate none).1.scale = prior.scale :=
  ⟨rfl, rfl, rfl, rfl, rfl, rfl, rfl, rfl, rfl, rfl⟩

/-- C4.  Bounds enforcement: whenever `curve_fit` converges — its
result `q` lies in the requested box, which is scipy's contract for a
successful bounded fit — the parameters `perform_auto_fit` stores
satisfy `decay ∈ [0, 1000]`, `freq ∈ [1, 20000]` and
`phase ∈ [−π, π]` for both components, while the amplitude slots are
genuinely unconstrained: every real value is attainable inside the
box. -/
theorem C4_bounds_enforcement (prior : FitParams) (data : List ℝ) (rate : ℝ)
    (q : Fin 8 → ℝ) (hq : inBounds q) :
    (0 ≤ (perform_auto_fit prior data rate (some q)).1.decay1 ∧
      (perform_auto_fit prior data rate (some q)).1.decay1 ≤ 1000) ∧
    (0 ≤ (perform_auto_fit prior data rate (some q)).1.decay2 ∧
      (perform_auto_fit prior data rate (some q)).1.decay2 ≤ 1000) ∧
    (1 ≤ (perform_auto_fit prior data rate (some q)).1.freq1 ∧
      (perform_auto_fit prior data rate (some q)).1.freq1 ≤ 20000) ∧
    (1 ≤ (perform_auto_fit prior data rate (some q)).1.freq2 ∧
      (perform_auto_fit prior data rate (some q)).1.freq2 ≤ 20000) ∧
    (-Real.pi ≤ (perform_auto_fit prior data rate (some q)).1.phase1 ∧
      (perform_auto_fit prior data rate (some q)).1.phase1 ≤ Real.pi) ∧
    (-Real.pi ≤ (perform_auto_fit prior data rate (some q)).1.phase2 ∧
      (perform_auto_fit prior data rate (some q)).1.phase2 ≤ Real.pi) ∧
    (∀ a : ℝ, ∃ q2 : Fin 8 → ℝ, inBounds q2 ∧ q2 0 = a ∧ q2 4 = a) := by
  have h1 := hq 1
  have h2 := hq 2
  have h3 := hq 3
  have h5 := hq 5
  have h6 := hq 6
  have h7 := hq 7
  simp only [fitLowerBounds, fitUpperBounds, EReal.coe_le_coe_iff] at h1 h2 h3 h5 h6 h7
  refine ⟨⟨h1.1, h1.2⟩, ⟨h5.1, h5.2⟩, ⟨h2.1, h2.2⟩, ⟨h6.1, h6.2⟩,
    ⟨h3.1, h3.2⟩, ⟨h7.1, h7.2⟩, fun a => ?_⟩
  refine ⟨fun i => match i with
    | 0 => a | 1 => 0 | 2 => 1 | 3 => 0 | 4 => a | 5 => 0 | 6 => 1 | 7 => 0,
    fun i => ?_, rfl, rfl⟩
  fin_cases i <;>
    constructor <;>
    first
      | exact bot_le
      | exact le_top
      | · refine EReal.coe_le_coe_iff.mpr ?_
          norm_num [Real.pi_nonneg]

/-- The concrete vector `inBoxVector` does lie inside the fit's box. -/
theorem inBoxVector_mem : inBounds inBoxVector := by
  intro i
  fin_cases i <;>
    constructor <;>
    first
      | exact bot_le
      | exact le_top
      | · refine EReal.coe_le_coe_iff.mpr ?_
          norm_num [inBoxVector, Real.pi_nonneg]

/-- Witness for C4: a concrete in-box optimizer result. -/
theorem C4_bounds_enforcement_witness :
    0 ≤ (perform_auto_fit defaultParams [] 1 (some inBoxVector)).1.decay1 ∧
      (perform_auto_fit defaultParams [] 1 (some inBoxVector)).1.decay1 ≤ 1000 :=
  (C4_bounds_enforcement defaultParams [] 1 inBoxVector inBoxVector_mem).1

/-- C5.  Scale distribution: the serializer multiplies `global_scale`
into each component's amplitude before formatting — each emitted
component string, and the whole emitted file, factor through templates
whose only amplitude slots hold `ampᵢ * scale` and which have no scale
slot at all — and for `global_scale = 2.0` with `amplitude = 1.5` the
serialized component expression's leading numeric literal is the string
`3.00000`. -/
theorem C5_scale_distribution (p : QParams) :
    export_comp1 p = spiceComp (p.amp1 * p.scale) p.decay1 p.freq1 p.phase1 ∧
    export_comp2 p = spiceComp (p.amp2 * p.scale) p.decay2 p.freq2 p.phase2 ∧
    export_content p = contentTemplate (p.amp1 * p.scale) p.decay1 p.freq1 p.phase1
      (p.amp2 * p.scale) p.decay2 p.freq2 p.phase2 ∧
    (export_comp1 scaleDemoParams).take 7 = "3.00000" := by
  refine ⟨rfl, rfl, rfl, ?_⟩
  have e1 : fmtQ 5 (scaleDemoParams.amp1 * scaleDemoParams.scale) = "3.00000" := by
    show fmtQ 5 ((3 : ℚ) / 2 * 2) = "3.00000"
    have hf : ⌊(3 : ℚ) / 2 * 2 * 10 ^ 5⌋ = 300000 := by norm_num
    have hr : rhe ((3 : ℚ) / 2 * 2 * 10 ^ 5) = ((300000 : ℕ) : ℤ) := by
      rw [rhe, hf]
      norm_num
    rw [fmtQ_eval (by norm_num) hr]
    decide
  have e2 : fmtQ 5 scaleDemoParams.decay1 = "20.00000" := by
    show fmtQ 5 (20 : ℚ) = "20.00000"
    have hf : ⌊(20 : ℚ) * 10 ^ 5⌋ = 2000000 := by norm_num
    have hr : rhe ((20 : ℚ) * 10 ^ 5) = ((2000000 : ℕ) : ℤ) := by
      rw [rhe, hf]
      norm_num
    rw [fmtQ_eval (by norm_num) hr]
    decide
  have e3 : fmtQ 5 scaleDemoParams.freq1 = "100.00000" := by
    show fmtQ 5 (100 : ℚ) = "100.00000"
    have hf : ⌊(100 : ℚ) * 10 ^ 5⌋ = 10000000 := by norm_num
    have hr : rhe ((100 : ℚ) * 10 ^ 5) = ((10000000 : ℕ) : ℤ) := by
      rw [rhe, hf]
      norm_num
    rw [fmtQ_eval (by norm_num) hr]
    decide
  have e4 : fmtQ 5 scaleDemoParams.phase1 = "0.00000" := by
    show fmtQ 5 (0 : ℚ) = "0.00000"
    have hf : ⌊(0 : ℚ) * 10 ^ 5⌋ = 0 := by norm_num
    have hr : rhe ((0 : ℚ) * 10 ^ 5) = ((0 : ℕ) : ℤ) := by
      rw [rhe, hf]
      norm_num
    rw [fmtQ_eval (by norm_num) hr]
    decide
  rw [export_comp1, e1, e2, e3, e4]
  decide

/-- Helper evaluation: quantizing `0.500004` to five decimals yields
exactly `1/2`. -/
theorem quantQ_cex_amp : quantQ 5 ((0.500004 : ℚ) * 1) = 1 / 2 := by
  unfold quantQ
  have hf : ⌊(0.500004 : ℚ) * 1 * 10 ^ 5⌋ = 50000 := by norm_num [Int.floor_eq_iff]
  rw [rhe, hf]
  norm_num

/-- Helper evaluation: quantizing `0` yields `0`. -/
theorem quantQ_zero : quantQ 5 (0 : ℚ) = 0 := by
  unfold quantQ
  have hf : ⌊(0 : ℚ) * 10 ^ 5⌋ = 0 := by norm_num
  rw [rhe, hf]
  norm_num

/-- Helper evaluation: quantizing `1` yields `1`. -/
theorem quantQ_one : quantQ 5 (1 : ℚ) = 1 := by
  unfold quantQ
  have hf : ⌊(1 : ℚ) * 10 ^ 5⌋ = 100000 := by norm_num
  rw [rhe, hf]
  norm_num

/-- C1, counterexample.  The round-trip law with a universal `1e-6`
absolute tolerance fails: for the parameter set with
`amp1 = 0.500004`, `decay1 = 0`, `freq1 = 1`, zero second component
and `scale = 1`, the serializer formats the amplitude as `0.50000`, so
at `t = 1/4` (the crest, where `sin(2π·f·t) = 1`) the model evaluates
to `0.500004` while the re-parsed expression is at most `0.5` — an
absolute error above `4·10⁻⁶ > 10⁻⁶`. -/
theorem C1_counterexample :
    1 / 1000000 <
      |update_plot_total (QParams.toFitParams roundtripCexParams) (1 / 4) -
        reparseExport roundtripCexParams (1 / 4)| := by
  have hA : update_plot_total (QParams.toFitParams roundtripCexParams) (1 / 4) =
      ((0.500004 : ℚ) : ℝ) := by
    simp only [roundtripCexParams, QParams.toFitParams, update_plot_total,
      update_plot_c1, update_plot_c2]
    push_cast
    rw [show (2 * Real.pi * 1 * (1 / 4) + 0 : ℝ) = Real.pi / 2 by ring,
      Real.sin_pi_div_two]
    norm_num [Real.exp_zero]
  have hB : reparseExport roundtripCexParams (1 / 4) =
      (1 / 2 : ℝ) * Real.sin (6.283185 * (1 / 4)) := by
    simp only [roundtripCexParams, reparseExport, reparseComp]
    simp only [parseFixed_fmtQ 5 (by norm_num)]
    rw [quantQ_cex_amp, show ((0 : ℚ) * 1) = (0 : ℚ) by ring, quantQ_zero, quantQ_one]
    push_cast
    norm_num [Real.exp_zero]
  rw [hA, hB]
  have hs : Real.sin (6.283185 * (1 / 4)) ≤ 1 := Real.sin_le_one _
  have hc : ((0.500004 : ℚ) : ℝ) = 0.500004 := by norm_num
  rw [hc]
  refine lt_of_lt_of_le ?_ (le_abs_self _)
  nlinarith [hs]

/-- C1, amended.  What re-parsing the emitted expression actually
reproduces, exactly rather than to `1e-6`: the model evaluator applied
to the 5-decimal-quantized fields — with `global_scale` already
distributed into the amplitudes — and with 2π replaced by the emitted
literal `6.283185`.  (The original uniform `1e-6` tolerance is refuted
by the counterexample: field quantization alone can move the value by
up to `5·10⁻⁶` per unit amplitude, and the `6.283185` literal drifts
the phase for large `f·t`.) -/
theorem C1_roundtrip_amended (p : QParams) (t : ℝ) :
    reparseExport p t =
      quantComp (p.amp1 * p.scale) p.decay1 p.freq1 p.phase1 t +
        quantComp (p.amp2 * p.scale) p.decay2 p.freq2 p.phase2 t := by
  unfold reparseExport reparseComp quantComp
  simp only [parseFixed_fmtQ 5 (by norm_num)]

/-- C7.  Initial-guess policy: component-1 frequency is the frequency
of the first (hence, by the descending-magnitude sortedness of the peak
list, highest-magnitude) detected peak, or 100 Hz with no peaks;
component-2 frequency is the second peak's frequency, or twice
component-1's with fewer than two peaks; amplitudes seed at 0.7× and
0.3× the window's peak absolute sample value; decays at the fixed seeds
20 and 50; both phases at 0 — all as slots 0-7 of the `p0` vector
handed to the optimizer. -/
theorem C7_initial_guess (data : List ℝ) (rate : ℝ) :
    guessF1 data rate =
      (if sortedPeakIdx data = [] then (100 : ℝ)
       else freqAt data rate ((sortedPeakIdx data).headD 0)) ∧
    guessF2 data rate =
      (if (sortedPeakIdx data).length < 2 then guessF1 data rate * 2
       else freqAt data rate ((sortedPeakIdx data).getD 1 0)) ∧
    guessA1 data = maxAbsSample data * 0.7 ∧
    guessA2 data = maxAbsSample data * 0.3 ∧
    initialP0 data rate 0 = guessA1 data ∧
    initialP0 data rate 1 = 20 ∧
    initialP0 data rate 2 = guessF1 data rate ∧
    initialP0 data rate 3 = 0 ∧
    initialP0 data rate 4 = guessA2 data ∧
    initialP0 data rate 5 = 50 ∧
    initialP0 data rate 6 = guessF2 data rate ∧
    initialP0 data rate 7 = 0 ∧
    (sortedPeakIdx data).Sorted
      (fun a b => magAt (magList data) b ≤ magAt (magList data) a) := by
  refine ⟨?_, ?_, rfl, rfl, rfl, rfl, rfl, rfl, rfl, rfl, rfl, rfl,
    sortedPeakIdx_sorted data⟩
  · unfold guessF1
    rcases hE : sortedPeakIdx data with _ | ⟨i, l⟩ <;> simp
  · unfold guessF2
    rcases hE : sortedPeakIdx data with _ | ⟨i, l⟩
    · simp
    · cases l with
      | nil => simp
      | cons j l2 =>
        simp [List.getD]
        rw [if_neg (by omega)]

/-- C6, counterexample.  The claim says `analyze` returns *exactly*
those local maxima whose magnitude exceeds 10% of the global maximum
(with 50-bin separation among them).  On the two-tone window both bins
2 and 4 are strict local maxima above the threshold, but the distance
filter of `find_peaks` greedily drops bin 2 (it is only 2 bins from the
stronger bin 4), so the code returns only bin 4 while the claimed
output is both peaks. -/
theorem C6_counterexample :
    sortedPeakIdx twoToneWindow = [4] ∧
    claimPeaks (magList twoToneWindow) = [4, 2] ∧
    sortedPeakIdx twoToneWindow ≠ claimPeaks (magList twoToneWindow) ∧
    2 ∈ localMaxima (magList twoToneWindow) ∧
    listMax (magList twoToneWindow) * 0.1 < magAt (magList twoToneWindow) 2 ∧
    2 ∉ sortedPeakIdx twoToneWindow := by
  refine ⟨peaks_twoTone, claimPeaks_twoTone, ?_, ?_, ?_, ?_⟩
  · rw [peaks_twoTone, claimPeaks_twoTone]
    simp
  · rw [magList_twoTone, localMaxima_twoTone]
    simp
  · rw [magList_twoTone]
    norm_num [magAt, List.getD, listMax, max_def]
  · rw [peaks_twoTone]
    simp

/-- C6, amended.  `analyze` computes the magnitude of the lower half of
the window's DFT with frequency axis `bin × rate / N` and returns a
*greedily selected subset* of the local maxima clearing 10% of the
maximum magnitude: every returned bin is such a local maximum at or
above the threshold, returned bins are pairwise at least 50 bins apart
and ordered by descending magnitude, and if no local maximum clears the
threshold the result is empty rather than an error — but a qualifying
local maximum within 50 bins of a stronger kept peak is dropped, so the
output is not "exactly" the thresholded set. -/
theorem C6_spectral_peaks_amended (data : List ℝ) (rate : ℝ) :
    (∀ i ∈ sortedPeakIdx data, i ∈ localMaxima (magList data) ∧
      listMax (magList data) * 0.1 ≤ magAt (magList data) i) ∧
    (sortedPeakIdx data).Pairwise (fun a b => 50 ≤ Nat.dist a b) ∧
    (sortedPeakIdx data).Sorted
      (fun a b => magAt (magList data) b ≤ magAt (magList data) a) ∧
    ((∀ i ∈ localMaxima (magList data),
        magAt (magList data) i < listMax (magList data) * 0.1) →
      sortedPeakIdx data = []) ∧
    analyze data rate =
      (sortedPeakIdx data).map fun k => (freqAt data rate k, magAt (magList data) k) :=
  ⟨fun _ hi => peaksOfMag_mem hi, greedySelect_pairwise _ _ _,
    sortedPeakIdx_sorted data, fun h => peaksOfMag_empty h, rfl⟩
